import Mathlib

/-!
Verification development for the EnglishQuest daily quiz application.

The definitions below are a shallow embedding of the quiz session logic:
the data model of src/types.ts, the event handlers of src/App.tsx and its
variant (handleStartQuiz, handleAnswerSelect, handleSubmitAnswer,
handleNextQuestion, finishQuiz, saveQuizHistory), the question source
adapter of src/services/geminiService.ts and its shuffling variant
(fetchDailyQuizQuestions, shuffleArray), and the localStorage daily cache
manipulated inside handleStartQuiz. External effects (the network call,
the Date clock, Math.random, the Firestore write outcome) are passed in as
explicit parameters.
-/

namespace EnglishQuest

/-- QuizQuestion from src/types.ts: question text, options, correctAnswer. -/
structure QuizQuestion where
  question : String
  options : List String
  correctAnswer : String
deriving DecidableEq, Repr

/-- UserAnswer from src/types.ts: one answer record created on submit. -/
structure UserAnswer where
  question : String
  selectedAnswer : String
  correctAnswer : String
  isCorrect : Bool
deriving DecidableEq, Repr

/-- GameState enum from src/types.ts. -/
inductive GameState where
  | Start
  | Playing
  | Finished
deriving DecidableEq, Repr

/-- AnswerFeedback enum from src/types.ts. -/
inductive AnswerFeedback where
  | None
  | Correct
  | Incorrect
deriving DecidableEq, Repr

/-- Difficulty enum from src/types.ts (the four-phase variant used by the
My Target app: Fase 1 .. Fase 4). -/
inductive Difficulty where
  | Phase1
  | Phase2
  | Phase3
  | Phase4
deriving DecidableEq, Repr

/-- QuizHistoryItem from src/types.ts: one persisted score record. -/
structure QuizHistoryItem where
  date : String
  score : Nat
  totalQuestions : Nat
  difficulty : Difficulty
deriving DecidableEq, Repr

/-- The raw value found in localStorage under the per-difficulty cache key
(myTargetQuiz-difficulty), as handleStartQuiz sees it after JSON.parse:
either the parse (or destructuring) throws, or it yields an object whose
questions field is not an array, or it yields a date together with an
array of questions. -/
inductive StoredCache where
  | malformed
  | badShape (date : String)
  | entry (date : String) (questions : List QuizQuestion)
deriving DecidableEq, Repr

/-- The React component state of App.tsx relevant to the quiz session,
together with the two browser-storage resources the handlers touch:
the per-difficulty daily cache and the history list. -/
structure AppState where
  gameState : GameState
  questions : List QuizQuestion
  currentQuestionIndex : Nat
  userAnswers : List UserAnswer
  selectedAnswer : Option String
  feedback : AnswerFeedback
  error : Option String
  selectedDifficulty : Difficulty
  cache : Difficulty → Option StoredCache
  history : List QuizHistoryItem

/-- The fetch branch of handleStartQuiz, entered when the cache did not
serve today's questions: await fetchDailyQuizQuestions, throw when the
result is empty, otherwise store the questions in the cache under today's
date and enter Playing; any thrown error is caught and exposed via
setError, leaving the phase as it was. The outcome of the awaited network
call is the explicit parameter fetchResult. -/
def startQuizFetch (today : String) (fetchResult : Except String (List QuizQuestion))
    (st : AppState) : AppState :=
  match fetchResult with
  | Except.error msg => { st with error := some msg }
  | Except.ok qs =>
      if qs.length = 0 then
        { st with error := some "The API returned no questions. Please try again." }
      else
        { st with questions := qs,
                  cache := fun d =>
                    if d = st.selectedDifficulty then some (StoredCache.entry today qs)
                    else st.cache d,
                  gameState := GameState.Playing }

/-- handleStartQuiz from src/App.tsx (variant src/unnamed/part_005 lines
108-153): eagerly reset error, index, answers, selection and feedback;
read the cache entry for the selected difficulty; serve from cache when it
parsed to an entry whose date is today and whose question array is
non-empty; remove the entry only when JSON.parse threw; otherwise fall
through to the fetch branch. -/
def handleStartQuiz (today : String) (fetchResult : Except String (List QuizQuestion))
    (s : AppState) : AppState :=
  let s0 : AppState :=
    { s with error := none, currentQuestionIndex := 0, userAnswers := [],
             selectedAnswer := none, feedback := AnswerFeedback.None }
  match s0.cache s0.selectedDifficulty with
  | some StoredCache.malformed =>
      startQuizFetch today fetchResult
        { s0 with cache := fun d =>
            if d = s0.selectedDifficulty then none else s0.cache d }
  | some (StoredCache.badShape _) => startQuizFetch today fetchResult s0
  | some (StoredCache.entry date qs) =>
      if date = today ∧ 0 < qs.length then
        { s0 with questions := qs, gameState := GameState.Playing }
      else startQuizFetch today fetchResult s0
  | none => startQuizFetch today fetchResult s0

/-- handleAnswerSelect from src/App.tsx: ignored once feedback is set,
otherwise overwrite the pending selection. -/
def handleAnswerSelect (answer : String) (s : AppState) : AppState :=
  if s.feedback ≠ AnswerFeedback.None then s
  else { s with selectedAnswer := some answer }

/-- handleSubmitAnswer from src/App.tsx lines 69-86: return early when no
selection is pending; otherwise read the current question, compare the
selection to its correctAnswer by string equality, set feedback and append
one UserAnswer record. When the index is out of range the JS code would
fault reading correctAnswer of undefined; the embedding leaves the state
unchanged in that unreachable case. -/
def handleSubmitAnswer (s : AppState) : AppState :=
  match s.selectedAnswer with
  | none => s
  | some sel =>
      match s.questions[s.currentQuestionIndex]? with
      | none => s
      | some q =>
          let isCorrect : Bool := sel = q.correctAnswer
          { s with
              feedback := if isCorrect then AnswerFeedback.Correct
                          else AnswerFeedback.Incorrect,
              userAnswers := s.userAnswers ++
                [{ question := q.question, selectedAnswer := sel,
                   correctAnswer := q.correctAnswer, isCorrect := isCorrect }] }

/-- saveQuizHistory from src/unnamed/part_005 lines 77-98, specialised to
the write outcome: build the history item from the score, the total and
the selected difficulty, stamped with the current time, and append it.
A failed write (saveScoreToFirestore catches and only logs) leaves the
history as it was; the parameter writeOk is the outcome of that external
write. -/
def saveQuizHistory (writeOk : Bool) (now : String) (currentScore total : Nat)
    (s : AppState) : AppState :=
  let newItem : QuizHistoryItem :=
    { date := now, score := currentScore, totalQuestions := total,
      difficulty := s.selectedDifficulty }
  if writeOk then { s with history := s.history ++ [newItem] } else s

/-- finishQuiz from src/unnamed/part_005 lines 189-193: compute the final
score as the number of correct answer records, fire the history write
without awaiting it, and enter Finished. -/
def finishQuiz (writeOk : Bool) (now : String) (s : AppState) : AppState :=
  let finalScore := (s.userAnswers.filter (fun a => a.isCorrect)).length
  let s1 := saveQuizHistory writeOk now finalScore s.questions.length s
  { s1 with gameState := GameState.Finished }

/-- handleNextQuestion from src/App.tsx lines 88-96: advance the index,
clear the selection and reset feedback while questions remain, otherwise
finish the quiz. -/
def handleNextQuestion (writeOk : Bool) (now : String) (s : AppState) : AppState :=
  if s.currentQuestionIndex < s.questions.length - 1 then
    { s with currentQuestionIndex := s.currentQuestionIndex + 1,
             selectedAnswer := none, feedback := AnswerFeedback.None }
  else finishQuiz writeOk now s

/-- listSwap models the JS destructuring swap inside shuffleArray:
exchange the elements at positions i and j when both are in bounds. -/
def listSwap {α : Type} (l : List α) (i j : Nat) : List α :=
  match l[i]?, l[j]? with
  | some x, some y => (l.set i y).set j x
  | some _, none => l
  | none, _ => l

/-- The Fisher-Yates loop of shuffleArray from src/unnamed/part_001 lines
12-19: for i from length-1 down to 1, pick j uniformly in [0,i] and swap
positions i and j. The Math.random draw at index i is modelled by the
oracle rand, reduced modulo i+1 exactly as Math.floor of random times i+1
lands in [0,i]. -/
def fisherYatesAux {α : Type} (rand : Nat → Nat) : Nat → List α → List α
  | 0, l => l
  | Nat.succ i, l =>
      fisherYatesAux rand i (listSwap l (i + 1) (rand (i + 1) % (i + 2)))

/-- shuffleArray from src/unnamed/part_001 lines 12-19: copy the array and
run the Fisher-Yates loop from the last index down to 1. -/
def shuffleArray {α : Type} (rand : Nat → Nat) (l : List α) : List α :=
  fisherYatesAux rand (l.length - 1) l

/-- fetchDailyQuizQuestions from src/services/geminiService.ts lines
84-98: given the payload the adapter obtained from the model response
(none when the response was empty, failed to parse, or was not an array),
reject an empty list as an invalid structure and otherwise return the
first six questions via slice(0, 6). The credential and transport error
branches precede this and are orthogonal to the payload parameter. -/
def fetchDailyQuizQuestions (parsed : Option (List QuizQuestion)) :
    Except String (List QuizQuestion) :=
  match parsed with
  | none => Except.error "Failed to process AI response format."
  | some questions =>
      if questions.length < 1 then
        Except.error "Invalid data structure received from API."
      else Except.ok (questions.take 6)

/-- The body of the map in src/unnamed/part_001 lines 131-135: keep the
question and correctAnswer, shuffle the options. -/
def processQuestion (rand : Nat → Nat) (q : QuizQuestion) : QuizQuestion :=
  { q with options := shuffleArray rand q.options }

/-- The map over questions.slice(0, 6) in src/unnamed/part_001: each call
of shuffleArray consumes fresh randomness, modelled by indexing the oracle
family rands by the position of the question in the list. -/
def processQuestions (rands : Nat → Nat → Nat) : Nat → List QuizQuestion →
    List QuizQuestion
  | _, [] => []
  | i, q :: rest => processQuestion (rands i) q :: processQuestions rands (i + 1) rest

/-- fetchDailyQuizQuestions from src/unnamed/part_001 lines 117-137, the
variant that also shuffles each question's options before returning. -/
def fetchDailyQuizQuestionsShuffled (rands : Nat → Nat → Nat)
    (parsed : Option (List QuizQuestion)) : Except String (List QuizQuestion) :=
  match parsed with
  | none => Except.error "Failed to process AI response format."
  | some questions =>
      if questions.length < 1 then
        Except.error "Invalid data structure received from API."
      else Except.ok (processQuestions rands 0 (questions.take 6))

/-- The submit event as the UI can actually dispatch it: App.tsx renders
the Check Answer button only while feedback is None (src/unnamed/part_005
line 384), so handleSubmitAnswer is reachable only from such states. -/
def submitEvent (s : AppState) : AppState :=
  if s.feedback = AnswerFeedback.None then handleSubmitAnswer s else s

/-- The advance event as the UI can actually dispatch it: the Next /
Results button is rendered only once feedback is set (src/unnamed/part_005
lines 384 and 412). -/
def advanceEvent (writeOk : Bool) (now : String) (s : AppState) : AppState :=
  if s.feedback ≠ AnswerFeedback.None then handleNextQuestion writeOk now s else s

/-- One user interaction during a play-through, as the Playing screen
exposes it. -/
inductive Ev where
  | select (answer : String)
  | submit
  | advance (writeOk : Bool) (now : String)

/-- Apply one UI event to the state. -/
def stepEv : Ev → AppState → AppState
  | Ev.select a, s => handleAnswerSelect a s
  | Ev.submit, s => submitEvent s
  | Ev.advance ok now, s => advanceEvent ok now s

/-- States of a quiz session reachable through the interface: some begin
attempt launched from the Start screen, followed by any sequence of
select, submit and advance interactions. -/
inductive Reachable : AppState → Prop
  | begin (today : String) (fetchResult : Except String (List QuizQuestion))
      (s : AppState) (h : s.gameState = GameState.Start) :
      Reachable (handleStartQuiz today fetchResult s)
  | step (e : Ev) {s : AppState} : Reachable s → Reachable (stepEv e s)

/-- Session invariant relating the answer-record count to the current
index while Playing: the count equals the index while no feedback is
shown, and the index plus one once a submit has set feedback. -/
def SessionInv (s : AppState) : Prop :=
  s.gameState = GameState.Playing →
    s.currentQuestionIndex < s.questions.length ∧
    (s.feedback = AnswerFeedback.None →
      s.userAnswers.length = s.currentQuestionIndex) ∧
    (s.feedback ≠ AnswerFeedback.None →
      s.userAnswers.length = s.currentQuestionIndex + 1)

/-- The per-question relation guaranteed by the option shuffle: text and
correct answer untouched, options permuted, membership of the correct
answer preserved. -/
def ShuffledLike (q1 q0 : QuizQuestion) : Prop :=
  q1.question = q0.question ∧ q1.correctAnswer = q0.correctAnswer ∧
  q1.options.Perm q0.options ∧
  (q0.correctAnswer ∈ q0.options → q1.correctAnswer ∈ q1.options)

/-! ### Concrete fixtures used by witnesses and counterexamples -/

/-- A concrete four-option question. -/
def qA : QuizQuestion :=
  { question := "Pick the animal: ___", options := ["cat", "dog", "fox", "owl"],
    correctAnswer := "cat" }

/-- A second concrete question with a different correct answer. -/
def qB : QuizQuestion :=
  { question := "Pick the colour: ___", options := ["red", "blue", "green", "pink"],
    correctAnswer := "blue" }

/-- A six-question list, as the source contract promises. -/
def sixQuestions : List QuizQuestion := [qA, qB, qA, qB, qA, qB]

/-- A fresh Start-screen state with empty storage. -/
def baseStart : AppState :=
  { gameState := GameState.Start, questions := [], currentQuestionIndex := 0,
    userAnswers := [], selectedAnswer := none, feedback := AnswerFeedback.None,
    error := none, selectedDifficulty := Difficulty.Phase1,
    cache := fun _ => none, history := [] }

/-- The state after a successful begin on a cache miss. -/
def playState : AppState :=
  handleStartQuiz "2026-10-11" (Except.ok sixQuestions) baseStart

/-- The state right after selecting and submitting the first answer. -/
def submittedState : AppState :=
  stepEv Ev.submit (stepEv (Ev.select "cat") playState)

/-- The begun session positioned at the last of its six questions. -/
def lastIdxState : AppState := { playState with currentQuestionIndex := 5 }

/-- A Start-screen state holding a stale cache entry dated the previous
day for every difficulty. -/
def staleStart : AppState :=
  { baseStart with cache := fun _ => some (StoredCache.entry "2026-10-10" [qA]) }

/-! ### Permutation facts about the Fisher-Yates shuffle -/

/-- Writing a at position m and moving the previous occupant y to the
front permutes the list. -/
theorem cons_set_perm {α : Type} : ∀ (t : List α) (m : Nat) (y a : α),
    t[m]? = some y → (y :: t.set m a).Perm (a :: t)
  | [], m, _, _, h => by simp at h
  | b :: t, 0, y, a, h => by
      rw [List.getElem?_cons_zero] at h
      injection h with h
      subst h
      exact List.Perm.swap a b t
  | b :: t, Nat.succ m, y, a, h => by
      rw [List.getElem?_cons_succ] at h
      have ih := cons_set_perm t m y a h
      have h1 : (y :: b :: t.set m a).Perm (b :: y :: t.set m a) :=
        List.Perm.swap b y (t.set m a)
      have h2 : (b :: y :: t.set m a).Perm (b :: a :: t) := ih.cons b
      have h3 : (b :: a :: t).Perm (a :: b :: t) := List.Perm.swap a b t
      have hset : (b :: t).set (m + 1) a = b :: t.set m a := rfl
      rw [hset]
      exact h1.trans (h2.trans h3)

/-- Exchanging the entries at two in-bounds positions via two writes
permutes the list. -/
theorem set_set_perm {α : Type} : ∀ (l : List α) (i j : Nat) (x y : α),
    l[i]? = some x → l[j]? = some y → ((l.set i y).set j x).Perm l
  | [], _, _, _, _, hi, _ => by simp at hi
  | a :: t, 0, 0, x, y, hi, hj => by
      rw [List.getElem?_cons_zero] at hi hj
      injection hi with hi
      injection hj with hj
      subst hi
      subst hj
      exact List.Perm.refl _
  | a :: t, 0, Nat.succ m, x, y, hi, hj => by
      rw [List.getElem?_cons_zero] at hi
      rw [List.getElem?_cons_succ] at hj
      injection hi with hi
      subst hi
      have hset : ((a :: t).set 0 y).set (m + 1) a = y :: t.set m a := rfl
      rw [hset]
      exact cons_set_perm t m y a hj
  | a :: t, Nat.succ n, 0, x, y, hi, hj => by
      rw [List.getElem?_cons_zero] at hj
      rw [List.getElem?_cons_succ] at hi
      injection hj with hj
      subst hj
      have hset : ((a :: t).set (n + 1) a).set 0 x = x :: t.set n a := rfl
      rw [hset]
      exact cons_set_perm t n x a hi
  | a :: t, Nat.succ n, Nat.succ m, x, y, hi, hj => by
      rw [List.getElem?_cons_succ] at hi hj
      have ih := set_set_perm t n m x y hi hj
      have hset : ((a :: t).set (n + 1) y).set (m + 1) x = a :: (t.set n y).set m x := rfl
      rw [hset]
      exact ih.cons a

/-- listSwap always permutes its argument. -/
theorem listSwap_perm {α : Type} (l : List α) (i j : Nat) :
    (listSwap l i j).Perm l := by
  unfold listSwap
  split
  case _ x y hi hj => exact set_set_perm l i j x y hi hj
  case _ => exact List.Perm.refl l
  case _ => exact List.Perm.refl l

/-- Every pass of the Fisher-Yates loop permutes the list. -/
theorem fisherYatesAux_perm {α : Type} (rand : Nat → Nat) :
    ∀ (n : Nat) (l : List α), (fisherYatesAux rand n l).Perm l
  | 0, l => List.Perm.refl l
  | Nat.succ i, l =>
      (fisherYatesAux_perm rand i _).trans
        (listSwap_perm l (i + 1) (rand (i + 1) % (i + 2)))

/-- shuffleArray returns a permutation of its input for every random
oracle. -/
theorem shuffleArray_perm {α : Type} (rand : Nat → Nat) (l : List α) :
    (shuffleArray rand l).Perm l :=
  fisherYatesAux_perm rand (l.length - 1) l

/-- After handleSubmitAnswer the state either is unchanged (no pending
selection or out-of-range index) or shows non-None feedback. -/
theorem handleSubmitAnswer_cases (s : AppState) :
    handleSubmitAnswer s = s ∨
    (handleSubmitAnswer s).feedback ≠ AnswerFeedback.None := by
  unfold handleSubmitAnswer
  cases hsel : s.selectedAnswer with
  | none => exact Or.inl rfl
  | some sel =>
      cases hq : s.questions[s.currentQuestionIndex]? with
      | none => exact Or.inl rfl
      | some q =>
          right
          by_cases hc : sel = q.correctAnswer
          · simp [hc]
          · simp [hc]

/-- C9: a history-write failure is absorbed (saveScoreToFirestore catches
and logs): for either write outcome, finishing a session always reaches
the Finished phase and surfaces no error; the transition does not depend
on the write succeeding. -/
theorem c9_finish_unaffected_by_history_failure (writeOk : Bool) (now : String)
    (s : AppState) :
    (finishQuiz writeOk now s).gameState = GameState.Finished ∧
    (finishQuiz writeOk now s).error = s.error ∧
    (finishQuiz writeOk now s).questions = s.questions ∧
    (finishQuiz writeOk now s).userAnswers = s.userAnswers := by
  cases writeOk <;> exact ⟨rfl, rfl, rfl, rfl⟩

/-- C2: submit is a no-op without a pending selection; with a pending
selection it appends exactly one answer record whose isCorrect field is
the exact string equality of the selection with the current question's
correctAnswer, and sets feedback to Correct or Incorrect accordingly. -/
theorem c2_submit_exact_string_match (s : AppState) :
    (s.selectedAnswer = none → handleSubmitAnswer s = s) ∧
    (∀ sel q, s.selectedAnswer = some sel →
      s.questions[s.currentQuestionIndex]? = some q →
      (handleSubmitAnswer s).userAnswers =
        s.userAnswers ++
          [{ question := q.question, selectedAnswer := sel,
             correctAnswer := q.correctAnswer,
             isCorrect := decide (sel = q.correctAnswer) }] ∧
      (handleSubmitAnswer s).feedback =
        (if sel = q.correctAnswer then AnswerFeedback.Correct
         else AnswerFeedback.Incorrect)) := by
  constructor
  · intro h
    unfold handleSubmitAnswer
    rw [h]
  · intro sel q hsel hq
    unfold handleSubmitAnswer
    rw [hsel, hq]
    by_cases hc : sel = q.correctAnswer
    · simp [hc]
    · simp [hc]

/-- C2 witness: at the freshly begun session with the first option
selected, submit appends the single correct record. -/
theorem c2_witness :
    (stepEv (Ev.select "cat") playState).selectedAnswer = some "cat" ∧
    (stepEv (Ev.select "cat") playState).questions[
      (stepEv (Ev.select "cat") playState).currentQuestionIndex]? = some qA ∧
    (handleSubmitAnswer (stepEv (Ev.select "cat") playState)).userAnswers =
      (stepEv (Ev.select "cat") playState).userAnswers ++
        [{ question := qA.question, selectedAnswer := "cat",
           correctAnswer := qA.correctAnswer,
           isCorrect := decide (("cat" : String) = qA.correctAnswer) }] := by
  refine ⟨by decide, by decide, ?_⟩
  exact ((c2_submit_exact_string_match (stepEv (Ev.select "cat") playState)).2
    "cat" qA (by decide) (by decide)).1

/-- C4 counterexample: at the reachable state just after the first submit
(feedback set, selection still pending), invoking handleSubmitAnswer again
appends a second answer record, so the raw submit handler is not a no-op
after a submit. -/
theorem c4_counterexample :
    submittedState.feedback ≠ AnswerFeedback.None ∧
    submittedState.selectedAnswer.isSome = true ∧
    (handleSubmitAnswer submittedState).userAnswers.length =
      submittedState.userAnswers.length + 1 := by
  refine ⟨by decide, by decide, by decide⟩

/-- C4 as amended: re-submission is impossible through the interface: the
Check Answer control is rendered only while feedback is None, and the
UI-dispatched submit event is idempotent, so a second submit without an
intervening advance has no additional effect. -/
theorem c4_ui_submit_idempotent (s : AppState) :
    submitEvent (submitEvent s) = submitEvent s := by
  by_cases h : s.feedback = AnswerFeedback.None
  · have hs : submitEvent s = handleSubmitAnswer s := by
      unfold submitEvent
      rw [if_pos h]
    rw [hs]
    rcases handleSubmitAnswer_cases s with heq | hne
    · rw [heq]
      unfold submitEvent
      rw [if_pos h, heq]
    · unfold submitEvent
      rw [if_neg hne]
  · have hs : submitEvent s = s := by
      unfold submitEvent
      rw [if_neg h]
    rw [hs, hs]

/-- C1: on a cache miss, when the adapter obtains a question list of
length at least one, begin keeps exactly the first six of them (slice 0 6)
and enters Playing; when it obtains an empty list, the adapter rejects it,
begin exposes the error and the phase remains Start. -/
theorem c1_begin_truncates_to_six (s : AppState) (today : String)
    (qs : List QuizQuestion)
    (hstart : s.gameState = GameState.Start)
    (hmiss : s.cache s.selectedDifficulty = none) :
    (1 ≤ qs.length →
      (handleStartQuiz today (fetchDailyQuizQuestions (some qs)) s).questions
        = qs.take 6 ∧
      (handleStartQuiz today (fetchDailyQuizQuestions (some qs)) s).questions.length
        = min 6 qs.length ∧
      (handleStartQuiz today (fetchDailyQuizQuestions (some qs)) s).gameState
        = GameState.Playing) ∧
    (qs.length = 0 →
      (handleStartQuiz today (fetchDailyQuizQuestions (some qs)) s).gameState
        = GameState.Start ∧
      (handleStartQuiz today (fetchDailyQuizQuestions (some qs)) s).error.isSome
        = true) := by
  constructor
  · intro hlen
    have h1 : ¬ qs.length < 1 := by omega
    have hfetch : fetchDailyQuizQuestions (some qs) = Except.ok (qs.take 6) := by
      simp only [fetchDailyQuizQuestions]
      rw [if_neg h1]
    have htake : ¬ (qs.take 6).length = 0 := by
      rw [List.length_take]
      omega
    unfold handleStartQuiz
    simp only [hmiss]
    rw [hfetch]
    simp only [startQuizFetch]
    rw [if_neg htake]
    exact ⟨rfl, by rw [List.length_take], rfl⟩
  · intro hlen
    have h1 : qs.length < 1 := by omega
    have hfetch : fetchDailyQuizQuestions (some qs)
        = Except.error "Invalid data structure received from API." := by
      simp only [fetchDailyQuizQuestions]
      rw [if_pos h1]
    unfold handleStartQuiz
    simp only [hmiss]
    rw [hfetch]
    unfold startQuizFetch
    exact ⟨hstart, rfl⟩

/-- C1 witness: beginning from the fresh Start state with the six-question
payload keeps all six and enters Playing, and the empty payload leaves the
phase at Start with an error. -/
theorem c1_witness :
    ((handleStartQuiz "2026-10-11" (fetchDailyQuizQuestions (some sixQuestions))
        baseStart).questions = sixQuestions.take 6 ∧
      (handleStartQuiz "2026-10-11" (fetchDailyQuizQuestions (some sixQuestions))
        baseStart).questions.length = min 6 sixQuestions.length ∧
      (handleStartQuiz "2026-10-11" (fetchDailyQuizQuestions (some sixQuestions))
        baseStart).gameState = GameState.Playing) ∧
    ((handleStartQuiz "2026-10-11" (fetchDailyQuizQuestions (some []))
        baseStart).gameState = GameState.Start ∧
      (handleStartQuiz "2026-10-11" (fetchDailyQuizQuestions (some []))
        baseStart).error.isSome = true) :=
  ⟨(c1_begin_truncates_to_six baseStart "2026-10-11" sixQuestions rfl rfl).1
      (by decide),
   (c1_begin_truncates_to_six baseStart "2026-10-11" [] rfl rfl).2 rfl⟩

/-- C10: a begin that fails on a cache miss (the fetch throws, or returns
an empty list) leaves the phase at Start with an error exposed, the index
at zero, the answers empty, the selection and feedback cleared, while the
question list keeps its previous value. -/
theorem c10_failed_begin_frame (s : AppState) (today msg : String)
    (fetchResult : Except String (List QuizQuestion))
    (hstart : s.gameState = GameState.Start)
    (hmiss : s.cache s.selectedDifficulty = none)
    (hfail : fetchResult = Except.error msg ∨ fetchResult = Except.ok []) :
    (handleStartQuiz today fetchResult s).gameState = GameState.Start ∧
    (handleStartQuiz today fetchResult s).error.isSome = true ∧
    (handleStartQuiz today fetchResult s).currentQuestionIndex = 0 ∧
    (handleStartQuiz today fetchResult s).userAnswers = [] ∧
    (handleStartQuiz today fetchResult s).selectedAnswer = none ∧
    (handleStartQuiz today fetchResult s).feedback = AnswerFeedback.None ∧
    (handleStartQuiz today fetchResult s).questions = s.questions := by
  unfold handleStartQuiz
  simp only [hmiss]
  rcases hfail with hf | hf <;> subst hf <;> unfold startQuizFetch
  · exact ⟨hstart, rfl, rfl, rfl, rfl, rfl, rfl⟩
  · simp only [List.length_nil, if_pos rfl]
    exact ⟨hstart, rfl, rfl, rfl, rfl, rfl, rfl⟩

/-- C10 witness: a failing fetch from the fresh Start state. -/
theorem c10_witness :
    (handleStartQuiz "2026-10-11" (Except.error "network down") baseStart).gameState
      = GameState.Start ∧
    (handleStartQuiz "2026-10-11" (Except.error "network down") baseStart).error.isSome
      = true ∧
    (handleStartQuiz "2026-10-11" (Except.error "network down") baseStart).currentQuestionIndex
      = 0 ∧
    (handleStartQuiz "2026-10-11" (Except.error "network down") baseStart).userAnswers
      = [] ∧
    (handleStartQuiz "2026-10-11" (Except.error "network down") baseStart).selectedAnswer
      = none ∧
    (handleStartQuiz "2026-10-11" (Except.error "network down") baseStart).feedback
      = AnswerFeedback.None ∧
    (handleStartQuiz "2026-10-11" (Except.error "network down") baseStart).questions
      = baseStart.questions :=
  c10_failed_begin_frame baseStart "2026-10-11" "network down"
    (Except.error "network down") rfl rfl (Or.inl rfl)

/-- C3: advancing from the last index finishes the session and records a
history entry whose score is the number of correct answer records and
whose total is the question count; advancing from a non-last index
increments the index, clears the selection, resets feedback and stays in
Playing. -/
theorem c3_advance (s : AppState) (now : String)
    (hplay : s.gameState = GameState.Playing)
    (_hlen : 0 < s.questions.length) :
    (s.currentQuestionIndex = s.questions.length - 1 →
      (handleNextQuestion true now s).gameState = GameState.Finished ∧
      (handleNextQuestion true now s).history = s.history ++
        [{ date := now,
           score := (s.userAnswers.filter (fun a => a.isCorrect)).length,
           totalQuestions := s.questions.length,
           difficulty := s.selectedDifficulty }]) ∧
    (s.currentQuestionIndex < s.questions.length - 1 →
      (handleNextQuestion true now s).gameState = GameState.Playing ∧
      (handleNextQuestion true now s).currentQuestionIndex
        = s.currentQuestionIndex + 1 ∧
      (handleNextQuestion true now s).selectedAnswer = none ∧
      (handleNextQuestion true now s).feedback = AnswerFeedback.None) := by
  constructor
  · intro hlast
    have hnot : ¬ s.currentQuestionIndex < s.questions.length - 1 := by omega
    unfold handleNextQuestion
    rw [if_neg hnot]
    unfold finishQuiz saveQuizHistory
    exact ⟨rfl, rfl⟩
  · intro hmid
    unfold handleNextQuestion
    rw [if_pos hmid]
    exact ⟨hplay, rfl, rfl, rfl⟩

/-- C3 witness: after answering the only submitted question of a fresh
session and advancing through all six, instantiate the theorem at the
just-begun state: advancing from index 0 of six questions increments the
index, and at the last-index variant the finish branch records score and
total. -/
theorem c3_witness :
    ((handleNextQuestion true "2026-10-11T12:00:00Z" lastIdxState).gameState
      = GameState.Finished ∧
     (handleNextQuestion true "2026-10-11T12:00:00Z" lastIdxState).history
      = lastIdxState.history ++
        [{ date := "2026-10-11T12:00:00Z",
           score := (lastIdxState.userAnswers.filter (fun a => a.isCorrect)).length,
           totalQuestions := lastIdxState.questions.length,
           difficulty := lastIdxState.selectedDifficulty }]) ∧
    ((handleNextQuestion true "2026-10-11T12:00:00Z" playState).gameState
      = GameState.Playing ∧
     (handleNextQuestion true "2026-10-11T12:00:00Z" playState).currentQuestionIndex
      = playState.currentQuestionIndex + 1 ∧
     (handleNextQuestion true "2026-10-11T12:00:00Z" playState).selectedAnswer = none ∧
     (handleNextQuestion true "2026-10-11T12:00:00Z" playState).feedback
      = AnswerFeedback.None) :=
  ⟨(c3_advance lastIdxState "2026-10-11T12:00:00Z"
      (by decide) (by decide)).1 (by decide),
   (c3_advance playState "2026-10-11T12:00:00Z" (by decide) (by decide)).2 (by decide)⟩

/-- C5: after a begin stores a fetched non-empty question list under
today's date, a second begin on the same date serves the identical list
from the cache (whatever the source would do), while a begin on a
different, later date does not find a usable entry and fails when its
fetch fails. -/
theorem c5_cache_round_trip (s : AppState) (today later msg : String)
    (qs : List QuizQuestion) (f : Except String (List QuizQuestion))
    (_hstart : s.gameState = GameState.Start)
    (hmiss : s.cache s.selectedDifficulty = none)
    (hne : qs ≠ [])
    (hlater : later ≠ today) :
    (handleStartQuiz today (Except.ok qs) s).cache s.selectedDifficulty
      = some (StoredCache.entry today qs) ∧
    ((handleStartQuiz today f
        { handleStartQuiz today (Except.ok qs) s with gameState := GameState.Start }).questions
      = qs ∧
     (handleStartQuiz today f
        { handleStartQuiz today (Except.ok qs) s with gameState := GameState.Start }).gameState
      = GameState.Playing) ∧
    ((handleStartQuiz later (Except.error msg)
        { handleStartQuiz today (Except.ok qs) s with gameState := GameState.Start }).gameState
      = GameState.Start ∧
     (handleStartQuiz later (Except.error msg)
        { handleStartQuiz today (Except.ok qs) s with gameState := GameState.Start }).error
      = some msg) := by
  have hq0 : 0 < qs.length := by
    cases qs with
    | nil => exact absurd rfl hne
    | cons a t => exact Nat.succ_pos _
  have hlen : ¬ qs.length = 0 := by omega
  have hstore : handleStartQuiz today (Except.ok qs) s =
      { s with error := none, currentQuestionIndex := 0, userAnswers := [],
               selectedAnswer := none, feedback := AnswerFeedback.None,
               questions := qs,
               cache := fun d =>
                 if d = s.selectedDifficulty then some (StoredCache.entry today qs)
                 else s.cache d,
               gameState := GameState.Playing } := by
    unfold handleStartQuiz
    simp only [hmiss]
    simp only [startQuizFetch]
    rw [if_neg hlen]
  rw [hstore]
  refine ⟨by simp, ?_, ?_⟩
  · constructor
    · simp [handleStartQuiz, hq0]
    · simp [handleStartQuiz, hq0]
  · constructor
    · simp [handleStartQuiz, startQuizFetch, Ne.symm hlater]
    · simp [handleStartQuiz, startQuizFetch, Ne.symm hlater]

/-- C5 witness: store six questions on 2026-10-11 from the fresh state,
reread them the same day, and miss on 2026-10-12. -/
theorem c5_witness :
    (handleStartQuiz "2026-10-11" (Except.ok sixQuestions) baseStart).cache
        baseStart.selectedDifficulty
      = some (StoredCache.entry "2026-10-11" sixQuestions) ∧
    ((handleStartQuiz "2026-10-11" (Except.error "offline")
        { handleStartQuiz "2026-10-11" (Except.ok sixQuestions) baseStart with
          gameState := GameState.Start }).questions = sixQuestions ∧
     (handleStartQuiz "2026-10-11" (Except.error "offline")
        { handleStartQuiz "2026-10-11" (Except.ok sixQuestions) baseStart with
          gameState := GameState.Start }).gameState = GameState.Playing) ∧
    ((handleStartQuiz "2026-10-12" (Except.error "offline")
        { handleStartQuiz "2026-10-11" (Except.ok sixQuestions) baseStart with
          gameState := GameState.Start }).gameState = GameState.Start ∧
     (handleStartQuiz "2026-10-12" (Except.error "offline")
        { handleStartQuiz "2026-10-11" (Except.ok sixQuestions) baseStart with
          gameState := GameState.Start }).error = some "offline") :=
  c5_cache_round_trip baseStart "2026-10-11" "2026-10-12" "offline" sixQuestions
    (Except.error "offline") rfl rfl (by decide) (by decide)

/-- C6 counterexample: with a stale entry (dated 2026-10-10, looked up on
2026-10-11) and a failing fetch, begin treats the entry as a miss but does
NOT purge it: the stale entry is still stored afterwards, contradicting
the claim that stale entries are removed at lookup. -/
theorem c6_counterexample :
    ("2026-10-10" : String) ≠ "2026-10-11" ∧
    staleStart.cache Difficulty.Phase1 = some (StoredCache.entry "2026-10-10" [qA]) ∧
    (handleStartQuiz "2026-10-11" (Except.error "network down") staleStart).cache
        Difficulty.Phase1
      = some (StoredCache.entry "2026-10-10" [qA]) ∧
    (handleStartQuiz "2026-10-11" (Except.error "network down") staleStart).gameState
      = GameState.Start := by
  exact ⟨by decide, by decide, by decide, by decide⟩

/-- C6 as amended: a stale, empty or wrong-shape entry is treated as a
miss but left in place (it is only replaced by a later successful store),
while an entry whose JSON fails to parse is purged at lookup; in every
case the cache problem is never surfaced: the begin error is exactly the
fetch failure. -/
theorem c6_stale_miss_not_purged (s : AppState) (today msg : String)
    (v : StoredCache)
    (hv : s.cache s.selectedDifficulty = some v)
    (hmiss : ∀ date qs, v = StoredCache.entry date qs → date ≠ today ∨ qs = []) :
    (handleStartQuiz today (Except.error msg) s).error = some msg ∧
    (handleStartQuiz today (Except.error msg) s).gameState = s.gameState ∧
    (handleStartQuiz today (Except.error msg) s).cache s.selectedDifficulty
      = (if v = StoredCache.malformed then none else some v) := by
  cases v with
  | malformed =>
      unfold handleStartQuiz
      simp only [hv]
      simp [startQuizFetch]
  | badShape date =>
      unfold handleStartQuiz
      simp only [hv]
      simp [startQuizFetch, hv]
  | entry date qs =>
      have hcond : ¬ (date = today ∧ 0 < qs.length) := by
        intro h
        rcases hmiss date qs rfl with hd | hq
        · exact hd h.1
        · rw [hq] at h
          exact Nat.lt_irrefl 0 h.2
      unfold handleStartQuiz
      simp only [hv]
      rw [if_neg hcond]
      simp [startQuizFetch, hv]

/-- C6 witness: the stale-entry state with a failing fetch: the error is
the fetch error and the stale entry survives the lookup. -/
theorem c6_witness :
    (handleStartQuiz "2026-10-11" (Except.error "offline again") staleStart).error
      = some "offline again" ∧
    (handleStartQuiz "2026-10-11" (Except.error "offline again") staleStart).gameState
      = staleStart.gameState ∧
    (handleStartQuiz "2026-10-11" (Except.error "offline again") staleStart).cache
        staleStart.selectedDifficulty
      = (if (StoredCache.entry "2026-10-10" [qA]) = StoredCache.malformed then none
         else some (StoredCache.entry "2026-10-10" [qA])) :=
  c6_stale_miss_not_purged staleStart "2026-10-11" "offline again"
    (StoredCache.entry "2026-10-10" [qA]) rfl
    (fun date qs h => by
      injection h with h1 h2
      subst h1
      exact Or.inl (by decide))

/-- The fetch branch preserves the session invariant when entered from a
freshly reset Start-screen state. -/
theorem startQuizFetch_inv (today : String) (f : Except String (List QuizQuestion))
    (st : AppState)
    (hgs : st.gameState = GameState.Start)
    (hidx : st.currentQuestionIndex = 0)
    (hans : st.userAnswers = [])
    (hfb : st.feedback = AnswerFeedback.None) :
    SessionInv (startQuizFetch today f st) := by
  unfold SessionInv
  cases f with
  | error msg =>
      simp only [startQuizFetch]
      intro hp
      simp [hgs] at hp
  | ok qs =>
      simp only [startQuizFetch]
      by_cases h0 : qs.length = 0
      · rw [if_pos h0]
        intro hp
        simp [hgs] at hp
      · rw [if_neg h0]
        intro _
        refine ⟨?_, ?_, ?_⟩
        · show st.currentQuestionIndex < qs.length
          rw [hidx]
          omega
        · intro _
          show st.userAnswers.length = st.currentQuestionIndex
          rw [hans, hidx]
          rfl
        · intro hfb2
          exact absurd hfb hfb2

/-- Any begin attempt from the Start screen establishes the session
invariant. -/
theorem startQuiz_base_inv (today : String) (f : Except String (List QuizQuestion))
    (s : AppState) (h : s.gameState = GameState.Start) :
    SessionInv (handleStartQuiz today f s) := by
  cases hv : s.cache s.selectedDifficulty with
  | none =>
      unfold handleStartQuiz
      simp only [hv]
      exact startQuizFetch_inv today f _ h rfl rfl rfl
  | some v =>
      cases v with
      | malformed =>
          unfold handleStartQuiz
          simp only [hv]
          exact startQuizFetch_inv today f _ h rfl rfl rfl
      | badShape date =>
          unfold handleStartQuiz
          simp only [hv]
          exact startQuizFetch_inv today f _ h rfl rfl rfl
      | entry date qs =>
          unfold handleStartQuiz
          simp only [hv]
          by_cases hc : date = today ∧ 0 < qs.length
          · rw [if_pos hc]
            intro _
            exact ⟨hc.2, fun _ => rfl, fun hfb => absurd rfl hfb⟩
          · rw [if_neg hc]
            exact startQuizFetch_inv today f _ h rfl rfl rfl

/-- Every UI event preserves the session invariant. -/
theorem stepEv_inv (e : Ev) (s : AppState) (hs : SessionInv s) :
    SessionInv (stepEv e s) := by
  cases e with
  | select a =>
      simp only [stepEv, handleAnswerSelect]
      by_cases hfb : s.feedback ≠ AnswerFeedback.None
      · rw [if_pos hfb]
        exact hs
      · rw [if_neg hfb]
        intro hp
        exact hs hp
  | submit =>
      simp only [stepEv, submitEvent]
      by_cases hfb : s.feedback = AnswerFeedback.None
      · rw [if_pos hfb]
        unfold handleSubmitAnswer
        cases hsel : s.selectedAnswer with
        | none => exact hs
        | some sel =>
            cases hq : s.questions[s.currentQuestionIndex]? with
            | none => exact hs
            | some q =>
                intro hp
                obtain ⟨h1, h2, h3⟩ := hs hp
                refine ⟨h1, ?_, ?_⟩
                · intro hfb2
                  exfalso
                  by_cases hc : sel = q.correctAnswer
                  · simp [hc] at hfb2
                  · simp [hc] at hfb2
                · intro _
                  show (s.userAnswers ++ [_]).length = s.currentQuestionIndex + 1
                  rw [List.length_append, h2 hfb]
                  rfl
      · rw [if_neg hfb]
        exact hs
  | advance ok now =>
      simp only [stepEv, advanceEvent]
      by_cases hfb : s.feedback ≠ AnswerFeedback.None
      · rw [if_pos hfb]
        unfold handleNextQuestion
        by_cases hlt : s.currentQuestionIndex < s.questions.length - 1
        · rw [if_pos hlt]
          intro hp
          obtain ⟨h1, h2, h3⟩ := hs hp
          refine ⟨?_, ?_, ?_⟩
          · show s.currentQuestionIndex + 1 < s.questions.length
            omega
          · intro _
            show s.userAnswers.length = s.currentQuestionIndex + 1
            exact h3 hfb
          · intro hfb2
            exact absurd rfl hfb2
        · rw [if_neg hlt]
          unfold finishQuiz saveQuizHistory
          intro hp
          exact GameState.noConfusion
            (show GameState.Finished = GameState.Playing from hp)
      · rw [if_neg hfb]
        exact hs

/-- The session invariant holds for every reachable state. -/
theorem reachable_inv (s : AppState) (h : Reachable s) : SessionInv s := by
  induction h with
  | begin today f s hstart => exact startQuiz_base_inv today f s hstart
  | step e hr ih => exact stepEv_inv e _ ih

/-- C7 counterexample: the reachable state right after submitting the
first answer has one answer record while the current index is still zero,
so the record count does not equal the index immediately after a submit. -/
theorem c7_counterexample :
    Reachable submittedState ∧
    submittedState.feedback ≠ AnswerFeedback.None ∧
    ¬ submittedState.userAnswers.length = submittedState.currentQuestionIndex :=
  ⟨Reachable.step Ev.submit (Reachable.step (Ev.select "cat")
      (Reachable.begin "2026-10-11" (Except.ok sixQuestions) baseStart rfl)),
   by decide, by decide⟩

/-- C7 as amended: in every reachable Playing state, immediately after a
submit (feedback set) the number of answer records equals the current
index plus one, and between questions (feedback None, before the next
submit) it equals the current index. -/
theorem c7_answers_track_index (s : AppState) (h : Reachable s)
    (hplay : s.gameState = GameState.Playing) :
    (s.feedback ≠ AnswerFeedback.None →
      s.userAnswers.length = s.currentQuestionIndex + 1) ∧
    (s.feedback = AnswerFeedback.None →
      s.userAnswers.length = s.currentQuestionIndex) := by
  obtain ⟨h1, h2, h3⟩ := reachable_inv s h hplay
  exact ⟨h3, h2⟩

/-- C7 witness: the amended relation instantiated at the concrete
just-submitted reachable state. -/
theorem c7_witness :
    submittedState.feedback ≠ AnswerFeedback.None ∧
    submittedState.userAnswers.length = submittedState.currentQuestionIndex + 1 :=
  ⟨by decide,
   (c7_answers_track_index submittedState
      (Reachable.step Ev.submit (Reachable.step (Ev.select "cat")
        (Reachable.begin "2026-10-11" (Except.ok sixQuestions) baseStart rfl)))
      (by decide)).1 (by decide)⟩

/-- Shuffling one question leaves its text and correct answer untouched,
permutes its options and preserves membership of the correct answer. -/
theorem processQuestion_shuffledLike (rand : Nat → Nat) (q : QuizQuestion) :
    ShuffledLike (processQuestion rand q) q := by
  refine ⟨rfl, rfl, shuffleArray_perm rand q.options, ?_⟩
  intro hmem
  exact ((shuffleArray_perm rand q.options).mem_iff).mpr hmem

/-- The per-question shuffle map relates output to input pointwise. -/
theorem processQuestions_forall2 (rands : Nat → Nat → Nat) :
    ∀ (i : Nat) (qs : List QuizQuestion),
      List.Forall₂ ShuffledLike (processQuestions rands i qs) qs
  | _, [] => List.Forall₂.nil
  | i, q :: rest =>
      List.Forall₂.cons (processQuestion_shuffledLike (rands i) q)
        (processQuestions_forall2 rands (i + 1) rest)

/-- C8: for every random oracle shuffleArray returns a permutation of its
input, so every question the shuffling adapter returns has the same
multiset of options as the question obtained from the source (first six),
with text and correctAnswer untouched and correctAnswer still a member of
the options. -/
theorem c8_shuffle_is_permutation :
    (∀ (rand : Nat → Nat) (l : List String), (shuffleArray rand l).Perm l) ∧
    (∀ (rands : Nat → Nat → Nat) (qs ys : List QuizQuestion),
      fetchDailyQuizQuestionsShuffled rands (some qs) = Except.ok ys →
      List.Forall₂ ShuffledLike ys (qs.take 6)) := by
  refine ⟨fun rand l => shuffleArray_perm rand l, ?_⟩
  intro rands qs ys h
  simp only [fetchDailyQuizQuestionsShuffled] at h
  by_cases h1 : qs.length < 1
  · rw [if_pos h1] at h
    exact absurd h (by simp)
  · rw [if_neg h1] at h
    injection h with h
    subst h
    exact processQuestions_forall2 rands 0 (qs.take 6)

/-- C8 witness: the shuffled fetch of a concrete two-question payload is
pointwise ShuffledLike its first-six slice, and a concrete shuffle is a
permutation. -/
theorem c8_witness :
    List.Forall₂ ShuffledLike
      (processQuestions (fun _ j => j + 1) 0 ([qA, qB].take 6)) ([qA, qB].take 6) ∧
    (shuffleArray (fun n => n + 3) ["red", "blue", "green"]).Perm
      ["red", "blue", "green"] :=
  ⟨c8_shuffle_is_permutation.2 (fun _ j => j + 1) [qA, qB]
      (processQuestions (fun _ j => j + 1) 0 ([qA, qB].take 6)) rfl,
   c8_shuffle_is_permutation.1 (fun n => n + 3) ["red", "blue", "green"]⟩

end EnglishQuest
